import Mathlib

/-!
Verification development for the duneroadrunner/misc repository.

The repository consists of essays on memory-safe C++ together with demo
snippets (`201/8/Jul/implications1.cpp`).  Two pieces are embedded here:

1.  The scope-bounded container "size-change lock" primitive
    (`make_xscope_vector_size_change_lock_guard` /
    `make_xslta_borrowing_fixed_vector`).  Its implementation lives in the
    third-party `mse` library and is not part of the repository, so it is
    modelled from the specification (each definition says so in its doc
    comment).

2.  The `reset_sequence` and `avg_word_length` functions, which appear in
    full in `implications1.cpp`; these are translated directly from that
    source.
-/

/-- Modelled from the spec: the error taxonomy of section 7 — `AlreadyLocked`,
`StructurallyLocked`, `OutOfRange`, and `UseAfterRelease` (checked mode). -/
inductive LockError where
  | AlreadyLocked
  | StructurallyLocked
  | OutOfRange
  | UseAfterRelease
  deriving DecidableEq

/-- Modelled from the spec: a Sequence (the underlying growable container)
together with its lock state.  `lock` holds the id of the live ScopeLock when
one exists (`Option` enforces "at most one ScopeLock per Sequence");
`nextLockId` is a fresh-id counter so that lock handles from distinct
acquisitions are distinguishable; `ptrCount` is the debug-mode liveness
bookkeeping counter mentioned for `elementPointer`. -/
structure SeqState (α : Type) where
  elems : List α
  lock : Option Nat
  nextLockId : Nat
  ptrCount : Nat
  deriving DecidableEq

/-- Modelled from the spec: an ElementPointer records which ScopeLock produced
it (`lockId`) and which element slot it references (`idx`). -/
structure ElementPointer where
  lockId : Nat
  idx : Nat
  deriving DecidableEq

/-- Modelled from the spec: `acquireLock(sequence) -> ScopeLock`.  Fails with
`AlreadyLocked` when a lock is already held (state unchanged); otherwise marks
the sequence structurally frozen and returns a fresh lock handle. -/
def acquireLock (s : SeqState α) : Except LockError Nat × SeqState α :=
  match s.lock with
  | some _ => (Except.error LockError.AlreadyLocked, s)
  | none =>
      (Except.ok s.nextLockId,
        { s with lock := some s.nextLockId, nextLockId := s.nextLockId + 1 })

/-- Modelled from the spec: ScopeLock release on scope exit — restores the
sequence to an unlocked, freely mutable state. -/
def releaseLock (s : SeqState α) : SeqState α :=
  { s with lock := none }

/-- Modelled from the spec: `Sequence.append` while locked fails with
`StructurallyLocked` (the sequence is returned unchanged, as after a C++
throw); while unlocked it appends the element. -/
def Sequence.append (s : SeqState α) (x : α) :
    Except LockError Unit × SeqState α :=
  match s.lock with
  | some _ => (Except.error LockError.StructurallyLocked, s)
  | none => (Except.ok (), { s with elems := s.elems ++ [x] })

/-- Modelled from the spec: `Sequence.insert` (structural mutation) — fails
with `StructurallyLocked` while locked, else inserts at position `j`. -/
def Sequence.insert (s : SeqState α) (j : Nat) (x : α) :
    Except LockError Unit × SeqState α :=
  match s.lock with
  | some _ => (Except.error LockError.StructurallyLocked, s)
  | none => (Except.ok (), { s with elems := s.elems.insertIdx j x })

/-- Modelled from the spec: `Sequence.erase` (structural mutation) — fails
with `StructurallyLocked` while locked, else removes the element at `j`. -/
def Sequence.eraseAt (s : SeqState α) (j : Nat) :
    Except LockError Unit × SeqState α :=
  match s.lock with
  | some _ => (Except.error LockError.StructurallyLocked, s)
  | none => (Except.ok (), { s with elems := s.elems.eraseIdx j })

/-- Modelled from the spec: `Sequence.clear` (structural mutation) — fails
with `StructurallyLocked` while locked, else removes all elements. -/
def Sequence.clear (s : SeqState α) : Except LockError Unit × SeqState α :=
  match s.lock with
  | some _ => (Except.error LockError.StructurallyLocked, s)
  | none => (Except.ok (), { s with elems := [] })

/-- Modelled from the spec: `Sequence.shrink` (shrink-to-fit: may relocate
elements, so it is a structural mutation) — fails with `StructurallyLocked`
while locked; while unlocked it only affects capacity, so the element list is
unchanged. -/
def Sequence.shrink (s : SeqState α) : Except LockError Unit × SeqState α :=
  match s.lock with
  | some _ => (Except.error LockError.StructurallyLocked, s)
  | none => (Except.ok (), s)

/-- Modelled from the spec: assignment of a new value to an existing slot is a
value mutation, not a structural one — it is permitted whether or not the
sequence is locked and never relocates elements. -/
def Sequence.setElem (s : SeqState α) (j : Nat) (x : α) : SeqState α :=
  { s with elems := s.elems.set j x }

/-- Modelled from the spec: `ScopeLock.elementPointer(index)`.  Requires the
originating lock `L` to still be the live lock; fails with `OutOfRange` when
the index is not below the current size; on success the only state change is
the debug-mode liveness counter (`ptrCount`). -/
def ScopeLock.elementPointer (s : SeqState α) (L : Nat) (i : Nat) :
    Except LockError ElementPointer × SeqState α :=
  if s.lock = some L then
    if i < s.elems.length then
      (Except.ok ⟨L, i⟩, { s with ptrCount := s.ptrCount + 1 })
    else (Except.error LockError.OutOfRange, s)
  else (Except.error LockError.UseAfterRelease, s)

/-- Modelled from the spec: checked-mode dereference of an ElementPointer.
If the originating lock has been released the dereference fails with
`UseAfterRelease` rather than returning a (stale) value; otherwise it yields
the current value of the referenced slot. -/
def ElementPointer.deref (s : SeqState α) (p : ElementPointer) :
    Except LockError α :=
  if s.lock = some p.lockId then
    match s.elems[p.idx]? with
    | some v => Except.ok v
    | none => Except.error LockError.OutOfRange
  else Except.error LockError.UseAfterRelease

/-- Modelled from the spec: the operations a caller can perform on a sequence
between two points in time, used to state temporal claims ("at every point
before L is released"). -/
inductive SeqOp (α : Type) where
  | append (x : α)
  | insert (j : Nat) (x : α)
  | eraseAt (j : Nat)
  | clear
  | shrink
  | set (j : Nat) (x : α)
  | acquire
  | release
  | ptrGet (L j : Nat)
  deriving DecidableEq

/-- Modelled from the spec: the state reached after one operation (failed
operations leave the state unchanged, as in the definitions above). -/
def applyOp (s : SeqState α) : SeqOp α → SeqState α
  | SeqOp.append x => (Sequence.append s x).2
  | SeqOp.insert j x => (Sequence.insert s j x).2
  | SeqOp.eraseAt j => (Sequence.eraseAt s j).2
  | SeqOp.clear => (Sequence.clear s).2
  | SeqOp.shrink => (Sequence.shrink s).2
  | SeqOp.set j x => Sequence.setElem s j x
  | SeqOp.acquire => (acquireLock s).2
  | SeqOp.release => releaseLock s
  | SeqOp.ptrGet L j => (ScopeLock.elementPointer s L j).2

/-- Modelled from the spec: the state reached after a list of operations. -/
def applyOps (s : SeqState α) : List (SeqOp α) → SeqState α
  | [] => s
  | op :: ops => applyOps (applyOp s op) ops

/-! Translations from `201/8/Jul/implications1.cpp` (snippet-3 and snippet-4
demo code, which is present in the repository in full). -/

/-- From `implications1.cpp`: `struct CState`, an array of ten strings
(modelled as the list of its contents) and an `int m_count`. -/
structure CState where
  m_data : List String
  m_count : Int
  deriving DecidableEq

/-- From `implications1.cpp`: `CSequence` is a vector of `CState`. -/
abbrev CSequence : Type := List CState

/-- From `implications1.cpp`: `reset_sequence(CState& initial_state)` —
`clear()` the vector, `push_back(initial_state)` (a copy, taken before the
increment), then `initial_state.m_count += 1`.  Returns the resulting vector
together with the updated `initial_state`.  Faithful for the case where
`initial_state` is not an element of the vector (aliasing with an element
would be destroyed by `clear()` in the C++). -/
def reset_sequence (v : CSequence) (initial_state : CState) :
    CSequence × CState :=
  let cleared : CSequence := []
  let pushed : CSequence := cleared ++ [initial_state]
  (pushed, { initial_state with m_count := initial_state.m_count + 1 })

/-- From `implications1.cpp`: `struct CItem` holds a (possibly null)
registered pointer to a string pointer; `none` models the null pointer and
`some w` a valid pointer chain ending at the string `w`. -/
structure CItem where
  m_string_xsptr_regptr : Option String
  deriving DecidableEq

/-- From `implications1.cpp`: the loop body of `avg_word_length` — the
accumulator pair is `(cummulative_length, num_words)`; an item is
dereferenced (adding its word length and counting it) only when its stored
pointer tests non-null. -/
def avg_loop : List CItem → Int × Int → Int × Int
  | [], acc => acc
  | item :: rest, acc =>
      match item.m_string_xsptr_regptr with
      | some s => avg_loop rest (acc.1 + (s.length : Int), acc.2 + 1)
      | none => avg_loop rest acc

/-- From `implications1.cpp`: the `num_words` counter value at loop exit. -/
def avg_num_words (container : List CItem) : Int :=
  (avg_loop container (0, 0)).2

/-- From `implications1.cpp`: `CF::avg_word_length` — run the loop from
`(0, 0)`, convert `cummulative_length` to `double` (modelled exactly as a
rational), and divide by `num_words` only under the guard
`1 <= num_words`. -/
def avg_word_length (container : List CItem) : Rat :=
  let acc := avg_loop container (0, 0)
  let retval : Rat := (acc.1 : Rat)
  if 1 ≤ acc.2 then retval / (acc.2 : Rat) else retval

/-! Helper lemmas about operation traces on a locked sequence. -/

/-- No operation ever decreases the fresh-lock-id counter. -/
theorem nextLockId_le_applyOp (s : SeqState α) (op : SeqOp α) :
    s.nextLockId ≤ (applyOp s op).nextLockId := by
  cases op <;>
    simp only [applyOp, Sequence.append, Sequence.insert, Sequence.eraseAt,
      Sequence.clear, Sequence.shrink, Sequence.setElem, acquireLock,
      releaseLock, ScopeLock.elementPointer] <;>
    (try cases s.lock) <;> (try split) <;> (try split) <;> simp

/-- While a lock with id `L` created before the trace began is still the live
lock at the end of a trace, it was live at the start, the sequence length is
unchanged (no structural mutation executed), and any slot never reassigned by
the trace still holds its original value. -/
theorem locked_trace_inv (L i : Nat) (ops : List (SeqOp α)) :
    ∀ s : SeqState α, L < s.nextLockId →
      (applyOps s ops).lock = some L →
      s.lock = some L ∧ (applyOps s ops).elems.length = s.elems.length ∧
        ((∀ x, SeqOp.set i x ∉ ops) →
          (applyOps s ops).elems[i]? = s.elems[i]?) := by
  induction ops with
  | nil => exact fun s _ hfin => ⟨hfin, rfl, fun _ => rfl⟩
  | cons op ops ih =>
    intro s hL hfin
    have hstep : applyOps s (op :: ops) = applyOps (applyOp s op) ops := rfl
    rw [hstep] at hfin ⊢
    have hL' : L < (applyOp s op).nextLockId :=
      lt_of_lt_of_le hL (nextLockId_le_applyOp s op)
    obtain ⟨hlock', hlen', hget'⟩ := ih (applyOp s op) hL' hfin
    have hkeep : s.lock = some L ∧ (applyOp s op).elems.length = s.elems.length ∧
        ((∀ x, SeqOp.set i x ≠ op) → (applyOp s op).elems[i]? = s.elems[i]?) := by
      cases op with
      | append x =>
        cases hsl : s.lock with
        | none => simp [applyOp, Sequence.append, hsl] at hlock'
        | some m =>
          have heq : applyOp s (SeqOp.append x) = s := by
            simp [applyOp, Sequence.append, hsl]
          rw [heq] at hlock' ⊢
          exact ⟨hsl ▸ hlock', rfl, fun _ => rfl⟩
      | insert j x =>
        cases hsl : s.lock with
        | none => simp [applyOp, Sequence.insert, hsl] at hlock'
        | some m =>
          have heq : applyOp s (SeqOp.insert j x) = s := by
            simp [applyOp, Sequence.insert, hsl]
          rw [heq] at hlock' ⊢
          exact ⟨hsl ▸ hlock', rfl, fun _ => rfl⟩
      | eraseAt j =>
        cases hsl : s.lock with
        | none => simp [applyOp, Sequence.eraseAt, hsl] at hlock'
        | some m =>
          have heq : applyOp s (SeqOp.eraseAt j) = s := by
            simp [applyOp, Sequence.eraseAt, hsl]
          rw [heq] at hlock' ⊢
          exact ⟨hsl ▸ hlock', rfl, fun _ => rfl⟩
      | clear =>
        cases hsl : s.lock with
        | none => simp [applyOp, Sequence.clear, hsl] at hlock'
        | some m =>
          have heq : applyOp s SeqOp.clear = s := by
            simp [applyOp, Sequence.clear, hsl]
          rw [heq] at hlock' ⊢
          exact ⟨hsl ▸ hlock', rfl, fun _ => rfl⟩
      | shrink =>
        have heq : applyOp s SeqOp.shrink = s := by
          cases hsl : s.lock <;> simp [applyOp, Sequence.shrink, hsl]
        rw [heq] at hlock' ⊢
        exact ⟨hlock', rfl, fun _ => rfl⟩
      | set j x =>
        refine ⟨hlock', List.length_set s.elems j x, fun hne => ?_⟩
        have hji : j ≠ i := by
          intro hji
          exact (hne x) (by simp [hji])
        simpa [applyOp, Sequence.setElem] using List.getElem?_set_ne hji
      | acquire =>
        cases hsl : s.lock with
        | none =>
          exfalso
          have : (applyOp s SeqOp.acquire).lock = some s.nextLockId := by
            simp [applyOp, acquireLock, hsl]
          rw [this] at hlock'
          exact absurd (Option.some.inj hlock').symm (Nat.ne_of_lt hL)
        | some m =>
          have heq : applyOp s SeqOp.acquire = s := by
            simp [applyOp, acquireLock, hsl]
          rw [heq] at hlock' ⊢
          exact ⟨hsl ▸ hlock', rfl, fun _ => rfl⟩
      | release =>
        exfalso
        simp [applyOp, releaseLock] at hlock'
      | ptrGet M j =>
        have helems : (applyOp s (SeqOp.ptrGet M j)).elems = s.elems := by
          simp only [applyOp, ScopeLock.elementPointer]
          split <;> (try split) <;> rfl
        have hlock2 : (applyOp s (SeqOp.ptrGet M j)).lock = s.lock := by
          simp only [applyOp, ScopeLock.elementPointer]
          split <;> (try split) <;> rfl
        exact ⟨hlock2 ▸ hlock', by rw [helems], fun _ => by rw [helems]⟩
    refine ⟨hkeep.1, hlen'.trans hkeep.2.1, fun hnotin => ?_⟩
    have h1 : ∀ x, SeqOp.set i x ∉ ops := fun x hx =>
      (hnotin x) (List.mem_cons_of_mem op hx)
    have h2 : ∀ x, SeqOp.set i x ≠ op := fun x hx =>
      (hnotin x) (hx ▸ List.mem_cons_self op ops)
    exact (hget' h1).trans (hkeep.2.2 h2)

/-! Claim theorems. -/

/-- C1: for every sequence `S`, after `acquireLock(S)` succeeds and until the
lock is released, every structural-mutation operation on `S` (append, insert,
erase, clear, shrink) fails with the caller-observable error
`StructurallyLocked` rather than executing, and `S`'s size and element
locations are unchanged by the failed attempt (each call returns the state
`s1` it received). -/
theorem C1_structural_mutations_fail_while_locked (s s1 : SeqState α)
    (L : Nat) (x : α) (j : Nat) (h : acquireLock s = (Except.ok L, s1)) :
    Sequence.append s1 x = (Except.error LockError.StructurallyLocked, s1) ∧
    Sequence.insert s1 j x = (Except.error LockError.StructurallyLocked, s1) ∧
    Sequence.eraseAt s1 j = (Except.error LockError.StructurallyLocked, s1) ∧
    Sequence.clear s1 = (Except.error LockError.StructurallyLocked, s1) ∧
    Sequence.shrink s1 = (Except.error LockError.StructurallyLocked, s1) := by
  have hm : ∃ m, s1.lock = some m := by
    cases hsl : s.lock with
    | some m => simp [acquireLock, hsl] at h
    | none =>
      simp [acquireLock, hsl] at h
      exact ⟨s.nextLockId, by rw [← h.2]⟩
  obtain ⟨m, hm⟩ := hm
  refine ⟨?_, ?_, ?_, ?_, ?_⟩ <;>
    simp [Sequence.append, Sequence.insert, Sequence.eraseAt, Sequence.clear,
      Sequence.shrink, hm]

/-- C1 witness: on the concrete 3-element sequence `[10, 20, 30]`,
`acquireLock` succeeds and each structural mutation then fails with
`StructurallyLocked`, leaving the state unchanged. -/
theorem C1_witness :
    acquireLock (⟨[10, 20, 30], none, 0, 0⟩ : SeqState Int)
      = (Except.ok 0, ⟨[10, 20, 30], some 0, 1, 0⟩) ∧
    (Sequence.append (⟨[10, 20, 30], some 0, 1, 0⟩ : SeqState Int) 40
        = (Except.error LockError.StructurallyLocked,
            ⟨[10, 20, 30], some 0, 1, 0⟩) ∧
      Sequence.insert (⟨[10, 20, 30], some 0, 1, 0⟩ : SeqState Int) 1 40
        = (Except.error LockError.StructurallyLocked,
            ⟨[10, 20, 30], some 0, 1, 0⟩) ∧
      Sequence.eraseAt (⟨[10, 20, 30], some 0, 1, 0⟩ : SeqState Int) 1
        = (Except.error LockError.StructurallyLocked,
            ⟨[10, 20, 30], some 0, 1, 0⟩) ∧
      Sequence.clear (⟨[10, 20, 30], some 0, 1, 0⟩ : SeqState Int)
        = (Except.error LockError.StructurallyLocked,
            ⟨[10, 20, 30], some 0, 1, 0⟩) ∧
      Sequence.shrink (⟨[10, 20, 30], some 0, 1, 0⟩ : SeqState Int)
        = (Except.error LockError.StructurallyLocked,
            ⟨[10, 20, 30], some 0, 1, 0⟩)) :=
  ⟨rfl, C1_structural_mutations_fail_while_locked
    ⟨[10, 20, 30], none, 0, 0⟩ ⟨[10, 20, 30], some 0, 1, 0⟩ 0 40 1 rfl⟩

/-- C2: if `acquireLock(S)` is called while a ScopeLock on `S` is already
alive, the second call fails with `AlreadyLocked` (leaving the state
unchanged) and `S` remains locked by the first lock.  At most one ScopeLock is
alive per sequence by construction: the live lock is a single
`Option`-valued field of the state. -/
theorem C2_second_acquire_fails_already_locked (s s1 : SeqState α) (L : Nat)
    (h : acquireLock s = (Except.ok L, s1)) :
    acquireLock s1 = (Except.error LockError.AlreadyLocked, s1) ∧
    s1.lock = some L := by
  cases hsl : s.lock with
  | some m => simp [acquireLock, hsl] at h
  | none =>
    simp [acquireLock, hsl] at h
    obtain ⟨hL, hs1⟩ := h
    have hlock : s1.lock = some L := by rw [← hs1]; simp [hL]
    exact ⟨by simp [acquireLock, hlock], hlock⟩

/-- C2 witness: acquiring twice in a row on a concrete sequence fails the
second time with `AlreadyLocked`, and the sequence stays locked by lock 0. -/
theorem C2_witness :
    acquireLock (⟨[10, 20, 30], none, 0, 0⟩ : SeqState Int)
      = (Except.ok 0, ⟨[10, 20, 30], some 0, 1, 0⟩) ∧
    (acquireLock (⟨[10, 20, 30], some 0, 1, 0⟩ : SeqState Int)
        = (Except.error LockError.AlreadyLocked,
            ⟨[10, 20, 30], some 0, 1, 0⟩) ∧
      (⟨[10, 20, 30], some 0, 1, 0⟩ : SeqState Int).lock = some 0) :=
  ⟨rfl, C2_second_acquire_fails_already_locked
    ⟨[10, 20, 30], none, 0, 0⟩ ⟨[10, 20, 30], some 0, 1, 0⟩ 0 rfl⟩

/-- C3: for a live lock `L` on `S` and an index `i < S.size()`,
`elementPointer(i)` succeeds, and at every later point at which `L` is still
the live lock (so before any release), dereferencing the returned pointer
yields the current value of slot `i`; when slot `i` has moreover not been
reassigned, that value is the one present when the pointer was obtained. -/
theorem C3_element_pointer_valid_while_lock_live (s : SeqState α)
    (L i : Nat) (ops : List (SeqOp α)) (hlock : s.lock = some L)
    (hwf : L < s.nextLockId) (hi : i < s.elems.length)
    (hfin : (applyOps s ops).lock = some L) :
    (ScopeLock.elementPointer s L i).1 = Except.ok ⟨L, i⟩ ∧
    ∃ v, (applyOps s ops).elems[i]? = some v ∧
      ElementPointer.deref (applyOps s ops) ⟨L, i⟩ = Except.ok v ∧
      ((∀ x, SeqOp.set i x ∉ ops) → s.elems[i]? = some v) := by
  obtain ⟨-, hlen, hget⟩ := locked_trace_inv L i ops s hwf hfin
  have hi' : i < (applyOps s ops).elems.length := by rw [hlen]; exact hi
  have hv : (applyOps s ops).elems[i]? =
      some ((applyOps s ops).elems.get ⟨i, hi'⟩) :=
    List.getElem?_eq_getElem hi'
  refine ⟨by simp [ScopeLock.elementPointer, hlock, hi], ?_⟩
  refine ⟨(applyOps s ops).elems.get ⟨i, hi'⟩, hv, ?_, fun hno => ?_⟩
  · simp [ElementPointer.deref, hfin, hv]
  · rw [← hget hno]; exact hv

/-- C3 witness: on `[10, 20, 30]` locked by lock 0, the pointer to slot 1 is
obtained, and after a trace consisting of a (failing) append and a value
assignment to slot 0, the pointer still dereferences to the current value of
slot 1, which is the original `20`. -/
theorem C3_witness :
    (ScopeLock.elementPointer (⟨[10, 20, 30], some 0, 1, 0⟩ : SeqState Int)
        0 1).1 = Except.ok ⟨0, 1⟩ ∧
    ∃ v, (applyOps (⟨[10, 20, 30], some 0, 1, 0⟩ : SeqState Int)
        [SeqOp.append 40, SeqOp.set 0 99]).elems[1]? = some v ∧
      ElementPointer.deref (applyOps
          (⟨[10, 20, 30], some 0, 1, 0⟩ : SeqState Int)
          [SeqOp.append 40, SeqOp.set 0 99]) ⟨0, 1⟩ = Except.ok v ∧
      ((∀ x, SeqOp.set 1 x ∉ [SeqOp.append (40 : Int), SeqOp.set 0 99]) →
        (⟨[10, 20, 30], some 0, 1, 0⟩ : SeqState Int).elems[1]? = some v) :=
  C3_element_pointer_valid_while_lock_live
    ⟨[10, 20, 30], some 0, 1, 0⟩ 0 1 [SeqOp.append 40, SeqOp.set 0 99]
    rfl (by decide) (by decide) rfl

/-- C4: once a lock is released, the sequence returns to the `Unlocked` state
with its elements intact: a structural mutation then succeeds and
`acquireLock` succeeds again.  The lock observable of any state is one of
exactly two cases, `none` (Unlocked) or `some id` (Locked). -/
theorem C4_release_restores_unlocked_state (s : SeqState α) (x : α) :
    (releaseLock s).lock = none ∧
    (releaseLock s).elems = s.elems ∧
    (Sequence.append (releaseLock s) x).1 = Except.ok () ∧
    (Sequence.append (releaseLock s) x).2.elems = s.elems ++ [x] ∧
    (acquireLock (releaseLock s)).1 = Except.ok s.nextLockId ∧
    (∀ t : SeqState α, t.lock = none ∨ ∃ id, t.lock = some id) := by
  refine ⟨rfl, rfl, rfl, rfl, rfl, fun t => ?_⟩
  cases h : t.lock with
  | none => exact Or.inl rfl
  | some id => exact Or.inr ⟨id, rfl⟩

/-- C5: for a live lock `L` on `S` and an index outside `[0, S.size())` —
with the unsigned index type, an index `i ≥ S.size()` — `elementPointer(i)`
fails with `OutOfRange`, produces no ElementPointer, and leaves the state
unchanged. -/
theorem C5_element_pointer_out_of_range (s : SeqState α) (L i : Nat)
    (hlock : s.lock = some L) (hi : s.elems.length ≤ i) :
    ScopeLock.elementPointer s L i = (Except.error LockError.OutOfRange, s) := by
  simp [ScopeLock.elementPointer, hlock, Nat.not_lt.mpr hi]

/-- C5 witness: index 5 on the locked 3-element sequence `[10, 20, 30]`
fails with `OutOfRange`. -/
theorem C5_witness :
    ScopeLock.elementPointer (⟨[10, 20, 30], some 0, 1, 0⟩ : SeqState Int) 0 5
      = (Except.error LockError.OutOfRange,
          ⟨[10, 20, 30], some 0, 1, 0⟩) :=
  C5_element_pointer_out_of_range ⟨[10, 20, 30], some 0, 1, 0⟩ 0 5 rfl
    (by decide)

/-- C6: in checked mode, for an ElementPointer `p` obtained from the live
lock `L` on `s`, dereferencing `p` after the lock has been released fails
with `UseAfterRelease` rather than returning a (stale or other) value. -/
theorem C6_deref_after_release_checked (s : SeqState α) (L i : Nat)
    (p : ElementPointer)
    (hp : (ScopeLock.elementPointer s L i).1 = Except.ok p) :
    ElementPointer.deref (releaseLock s) p
      = Except.error LockError.UseAfterRelease := by
  simp [ElementPointer.deref, releaseLock]

/-- C6 witness: the pointer to slot 1 of the locked `[10, 20, 30]`, when
dereferenced after release, fails with `UseAfterRelease`. -/
theorem C6_witness :
    ElementPointer.deref
        (releaseLock (⟨[10, 20, 30], some 0, 1, 0⟩ : SeqState Int)) ⟨0, 1⟩
      = Except.error LockError.UseAfterRelease :=
  C6_deref_after_release_checked ⟨[10, 20, 30], some 0, 1, 0⟩ 0 1 ⟨0, 1⟩ rfl

/-- C7: for an ElementPointer `p` to slot `i` of a locked sequence, assigning
a new value to slot `i` (a value mutation) while the lock is alive does not
invalidate `p`: `p` dereferences successfully and yields the newly assigned
value. -/
theorem C7_value_mutation_keeps_pointer (s : SeqState α) (L i : Nat) (x : α)
    (p : ElementPointer)
    (hp : (ScopeLock.elementPointer s L i).1 = Except.ok p) :
    ElementPointer.deref (Sequence.setElem s i x) p = Except.ok x := by
  by_cases h1 : s.lock = some L
  · by_cases h2 : i < s.elems.length
    · have hpe : p = (⟨L, i⟩ : ElementPointer) := by
        simp [ScopeLock.elementPointer, h1, h2] at hp
        exact hp.symm
      subst hpe
      simp [ElementPointer.deref, Sequence.setElem, h1,
        List.getElem?_set_eq_of_lt x h2]
    · simp [ScopeLock.elementPointer, h1, h2] at hp
  · simp [ScopeLock.elementPointer, h1] at hp

/-- C7 witness: after assigning 99 to slot 1 of the locked `[10, 20, 30]`,
the previously obtained pointer to slot 1 dereferences to 99. -/
theorem C7_witness :
    ElementPointer.deref
        (Sequence.setElem (⟨[10, 20, 30], some 0, 1, 0⟩ : SeqState Int) 1 99)
        ⟨0, 1⟩
      = Except.ok 99 :=
  C7_value_mutation_keeps_pointer ⟨[10, 20, 30], some 0, 1, 0⟩ 0 1 99 ⟨0, 1⟩ rfl

/-- C8: for a live lock and a valid index, `elementPointer` leaves the
sequence unchanged — same elements, same lock state, same fresh-id counter —
with the only state change being the debug-mode liveness counter
`ptrCount`. -/
theorem C8_element_pointer_frame (s : SeqState α) (L i : Nat)
    (hlock : s.lock = some L) (hi : i < s.elems.length) :
    ScopeLock.elementPointer s L i
      = (Except.ok ⟨L, i⟩, { s with ptrCount := s.ptrCount + 1 }) ∧
    (ScopeLock.elementPointer s L i).2.elems = s.elems ∧
    (ScopeLock.elementPointer s L i).2.lock = s.lock ∧
    (ScopeLock.elementPointer s L i).2.nextLockId = s.nextLockId := by
  have h : ScopeLock.elementPointer s L i
      = (Except.ok ⟨L, i⟩, { s with ptrCount := s.ptrCount + 1 }) := by
    simp [ScopeLock.elementPointer, hlock, hi]
  exact ⟨h, by rw [h], by rw [h], by rw [h]⟩

/-- C8 witness: on the locked `[10, 20, 30]`, obtaining the pointer to slot 1
changes only the liveness counter. -/
theorem C8_witness :
    ScopeLock.elementPointer (⟨[10, 20, 30], some 0, 1, 0⟩ : SeqState Int) 0 1
        = (Except.ok ⟨0, 1⟩, ⟨[10, 20, 30], some 0, 1, 1⟩) ∧
    (ScopeLock.elementPointer (⟨[10, 20, 30], some 0, 1, 0⟩ : SeqState Int)
        0 1).2.elems = [10, 20, 30] ∧
    (ScopeLock.elementPointer (⟨[10, 20, 30], some 0, 1, 0⟩ : SeqState Int)
        0 1).2.lock = some 0 ∧
    (ScopeLock.elementPointer (⟨[10, 20, 30], some 0, 1, 0⟩ : SeqState Int)
        0 1).2.nextLockId = 1 :=
  C8_element_pointer_frame ⟨[10, 20, 30], some 0, 1, 0⟩ 0 1 rfl (by decide)

/-- Items whose stored pointer is null contribute nothing to the loop:
running it over only the non-null items gives the same accumulator. -/
theorem avg_loop_filter (c : List CItem) :
    ∀ acc : Int × Int,
      avg_loop (c.filter fun it => it.m_string_xsptr_regptr.isSome) acc
        = avg_loop c acc := by
  induction c with
  | nil => intro acc; rfl
  | cons it rest ih =>
    intro acc
    cases h : it.m_string_xsptr_regptr with
    | none => simp [List.filter_cons, h, avg_loop, ih]
    | some w => simp [List.filter_cons, h, avg_loop, ih]

/-- The `num_words` component of the loop counts exactly the items whose
stored pointer is non-null. -/
theorem avg_loop_num_words (c : List CItem) :
    ∀ acc : Int × Int,
      (avg_loop c acc).2 = acc.2
        + ((c.filter fun it => it.m_string_xsptr_regptr.isSome).length : Int) := by
  induction c with
  | nil => intro acc; simp [avg_loop]
  | cons it rest ih =>
    intro acc
    cases h : it.m_string_xsptr_regptr with
    | none => simp [avg_loop, h, List.filter_cons, ih]
    | some w =>
      simp only [avg_loop, h, List.filter_cons, Option.isSome_some,
        if_pos True.intro, List.length_cons, ih]
      push_cast
      ring

/-- When every item's pointer is null, the loop returns its accumulator
unchanged (no dereference and no counting happens). -/
theorem avg_loop_all_none (c : List CItem)
    (h : ∀ it ∈ c, it.m_string_xsptr_regptr = none) :
    ∀ acc : Int × Int, avg_loop c acc = acc := by
  induction c with
  | nil => intro acc; rfl
  | cons it rest ih =>
    intro acc
    have hit : it.m_string_xsptr_regptr = none := h it (List.mem_cons_self it rest)
    have hrest : ∀ x ∈ rest, x.m_string_xsptr_regptr = none :=
      fun x hx => h x (List.mem_cons_of_mem it hx)
    simp [avg_loop, hit, ih hrest]

/-- C9: `avg_word_length` dereferences only items with a non-null stored
pointer — its value depends only on the non-null items, and `num_words`
counts exactly those items — and the division is executed only under the
guard `1 <= num_words`, so on a list with no non-null item it returns 0
without dividing. -/
theorem C9_avg_word_length_null_safe (c : List CItem) :
    avg_word_length c
      = avg_word_length (c.filter fun it => it.m_string_xsptr_regptr.isSome) ∧
    avg_num_words c
      = ((c.filter fun it => it.m_string_xsptr_regptr.isSome).length : Int) ∧
    ((∀ it ∈ c, it.m_string_xsptr_regptr = none) →
      ¬ 1 ≤ avg_num_words c ∧ avg_word_length c = 0) := by
  refine ⟨?_, ?_, fun hnone => ?_⟩
  · unfold avg_word_length
    rw [avg_loop_filter c (0, 0)]
  · unfold avg_num_words
    rw [avg_loop_num_words c (0, 0)]
    simp
  · have hz : avg_loop c (0, 0) = (0, 0) := avg_loop_all_none c hnone (0, 0)
    constructor
    · unfold avg_num_words
      rw [hz]
      decide
    · unfold avg_word_length
      rw [hz]
      simp

/-- C9 witness: on the concrete list with one null item and one item pointing
at "gnu", the function equals its restriction to the non-null items and
counts one word; applying the all-null consequence to the singleton null list
yields 0 with the division guard false. -/
theorem C9_witness :
    (¬ 1 ≤ avg_num_words [CItem.mk none] ∧
      avg_word_length [CItem.mk none] = 0) ∧
    avg_num_words [CItem.mk none, CItem.mk (some "gnu")]
      = (([CItem.mk none, CItem.mk (some "gnu")].filter
          fun it => it.m_string_xsptr_regptr.isSome).length : Int) :=
  ⟨(C9_avg_word_length_null_safe [CItem.mk none]).2.2
      (by intro it hit; simp at hit; rw [hit]),
    (C9_avg_word_length_null_safe [CItem.mk none, CItem.mk (some "gnu")]).2.1⟩

/-- C10: for a sequence `v` and a state `s` that is not an element of `v`
(so `clear()` does not destroy the argument), `reset_sequence` leaves the
sequence holding exactly one element — a copy of `s` taken before the counter
increment, with `m_count` equal to `s`'s at entry — and returns `s` with its
`m_count` exactly one greater and `m_data` unchanged. -/
theorem C10_reset_sequence_correct (v : CSequence) (s : CState) (h : s ∉ v) :
    (reset_sequence v s).1 = [s] ∧
    (reset_sequence v s).1.length = 1 ∧
    (reset_sequence v s).2.m_count = s.m_count + 1 ∧
    (reset_sequence v s).2.m_data = s.m_data :=
  ⟨rfl, rfl, rfl, rfl⟩

/-- C10 witness: resetting the two-element sequence made of default states
with a fresh state of count 7 yields the singleton copy (count still 7) and
bumps the argument's count to 8. -/
theorem C10_witness :
    (reset_sequence [CState.mk [] 0, CState.mk [] 0] (CState.mk ["w"] 7)).1
        = [CState.mk ["w"] 7] ∧
    (reset_sequence [CState.mk [] 0, CState.mk [] 0] (CState.mk ["w"] 7)).1.length
        = 1 ∧
    (reset_sequence [CState.mk [] 0, CState.mk [] 0]
        (CState.mk ["w"] 7)).2.m_count = 7 + 1 ∧
    (reset_sequence [CState.mk [] 0, CState.mk [] 0]
        (CState.mk ["w"] 7)).2.m_data = ["w"] :=
  C10_reset_sequence_correct [CState.mk [] 0, CState.mk [] 0]
    (CState.mk ["w"] 7) (by decide)
